import Mathlib

/-!
Verification of the Telnyx remote MCP server's OAuth broker and JSON-RPC
dispatcher (`src/telnyx_mcp_server/remote/auth_store.py`,
`src/telnyx_mcp_server/remote/server.py`, `src/telnyx_mcp_server/remote/auth.py`),
as a shallow embedding in Lean.

Bytes are `Nat` values below 256; time is `Nat`; Python dicts are association
lists preserving insertion order (Python 3.7+ semantics); Python `Optional[str]`
is `Option String`, with Python truthiness (`None` and `""` are falsy) made
explicit where the source relies on it.
-/

namespace TelnyxMCP

/-! ## SHA-256 over byte lists, modelling `hashlib.sha256(...).digest()` -/

def w32 (x : Nat) : Nat := x % 4294967296

def rotr32 (n x : Nat) : Nat := w32 ((x >>> n) ||| (x <<< (32 - n)))

def shaCh (x y z : Nat) : Nat := w32 ((x &&& y) ^^^ ((x ^^^ 4294967295) &&& z))

def shaMaj (x y z : Nat) : Nat := w32 ((x &&& y) ^^^ (x &&& z) ^^^ (y &&& z))

def bigSigma0 (x : Nat) : Nat := rotr32 2 x ^^^ rotr32 13 x ^^^ rotr32 22 x

def bigSigma1 (x : Nat) : Nat := rotr32 6 x ^^^ rotr32 11 x ^^^ rotr32 25 x

def smallSigma0 (x : Nat) : Nat := rotr32 7 x ^^^ rotr32 18 x ^^^ (x >>> 3)

def smallSigma1 (x : Nat) : Nat := rotr32 17 x ^^^ rotr32 19 x ^^^ (x >>> 10)

/-- The 64 SHA-256 round constants of FIPS 180-4, as decimal naturals. -/
def shaK : List Nat :=
  [1116352408, 1899447441, 3049323471, 3921009573,
   961987163, 1508970993, 2453635748, 2870763221,
   3624381080, 310598401, 607225278, 1426881987,
   1925078388, 2162078206, 2614888103, 3248222580,
   3835390401, 4022224774, 264347078, 604807628,
   770255983, 1249150122, 1555081692, 1996064986,
   2554220882, 2821834349, 2952996808, 3210313671,
   3336571891, 3584528711, 113926993, 338241895,
   666307205, 773529912, 1294757372, 1396182291,
   1695183700, 1986661051, 2177026350, 2456956037,
   2730485921, 2820302411, 3259730800, 3345764771,
   3516065817, 3600352804, 4094571909, 275423344,
   430227734, 506948616, 659060556, 883997877,
   958139571, 1322822218, 1537002063, 1747873779,
   1955562222, 2024104815, 2227730452, 2361852424,
   2428436474, 2756734187, 3204031479, 3329325298]

/-- The eight SHA-256 initial hash words of FIPS 180-4, as decimal naturals. -/
def shaH0 : List Nat :=
  [1779033703, 3144134277, 1013904242, 2773480762,
   1359893119, 2600822924, 528734635, 1541459225]

def natToBytesBE : Nat → Nat → List Nat
  | _, 0 => []
  | n, k + 1 => natToBytesBE (n / 256) k ++ [n % 256]

def padMessage (msg : List Nat) : List Nat :=
  let L := msg.length
  let zeros := (119 - L % 64) % 64
  msg ++ [128] ++ List.replicate zeros 0 ++ natToBytesBE (8 * L) 8

def bytesToWords : List Nat → List Nat
  | b0 :: b1 :: b2 :: b3 :: rest =>
      (b0 * 16777216 + b1 * 65536 + b2 * 256 + b3) :: bytesToWords rest
  | _ => []

def wordToBytes (w : Nat) : List Nat :=
  [w / 16777216 % 256, w / 65536 % 256, w / 256 % 256, w % 256]

def chunksAux : Nat → List Nat → List (List Nat)
  | 0, _ => []
  | _, [] => []
  | fuel + 1, b :: bs => (b :: bs.take 63) :: chunksAux fuel (bs.drop 63)

def chunks64 (l : List Nat) : List (List Nat) := chunksAux l.length l

def extendW : List Nat → Nat → List Nat
  | ws, 0 => ws
  | ws, n + 1 =>
    let l := ws.length
    extendW (ws ++ [w32 (smallSigma1 (ws.getD (l - 2) 0) + ws.getD (l - 7) 0 +
      smallSigma0 (ws.getD (l - 15) 0) + ws.getD (l - 16) 0)]) n

def shaRound (st : List Nat) (kw : Nat × Nat) : List Nat :=
  match st with
  | [a, b, c, d, e, f, g, h] =>
    let t1 := w32 (h + bigSigma1 e + shaCh e f g + kw.1 + kw.2)
    let t2 := w32 (bigSigma0 a + shaMaj a b c)
    [w32 (t1 + t2), a, b, c, w32 (d + t1), e, f, g]
  | other => other

def compressBlock (H : List Nat) (block : List Nat) : List Nat :=
  let ws := extendW (bytesToWords block) 48
  let st := (shaK.zip ws).foldl shaRound H
  (H.zip st).map (fun p => w32 (p.1 + p.2))

def sha256 (msg : List Nat) : List Nat :=
  (((chunks64 (padMessage msg)).foldl compressBlock shaH0).map wordToBytes).flatten

/-! ## base64url without padding, modelling
`base64.urlsafe_b64encode(digest).decode('ascii').rstrip('=')` -/

def b64Alphabet : List Char :=
  "ABCDEFGHIJKLMNOPQRSTUVWXYZabcdefghijklmnopqrstuvwxyz0123456789-_".data

def b64c (n : Nat) : Char := b64Alphabet.getD n 'A'

def b64urlNoPad : List Nat → List Char
  | b0 :: b1 :: b2 :: rest =>
      b64c (b0 / 4) :: b64c (b0 % 4 * 16 + b1 / 16) ::
      b64c (b1 % 16 * 4 + b2 / 64) :: b64c (b2 % 64) :: b64urlNoPad rest
  | [b0, b1] => [b64c (b0 / 4), b64c (b0 % 4 * 16 + b1 / 16), b64c (b1 % 16 * 4)]
  | [b0] => [b64c (b0 / 4), b64c (b0 % 4 * 16)]
  | [] => []

def strToBytes (s : String) : List Nat := s.data.map Char.toNat

/-- `base64.urlsafe_b64encode(hashlib.sha256(verifier.encode('ascii')).digest())
.decode('ascii').rstrip('=')` — server.py lines 889-891. -/
def computeS256Challenge (verifier : String) : String :=
  String.mk (b64urlNoPad (sha256 (strToBytes verifier)))

/-! ## Python-dict and truthiness helpers -/

/-- Python truthiness of an `Optional[str]`: `None` and `""` are falsy. -/
def strTruthy : Option String → Bool
  | some s => s != ""
  | none => false

/-- `d[k] = v` on a Python dict (insertion-ordered): update in place if the key
exists, else append. -/
def dictSet (l : List (String × β)) (k : String) (v : β) : List (String × β) :=
  if l.any (fun p => p.1 == k) then
    l.map (fun p => if p.1 == k then (k, v) else p)
  else l ++ [(k, v)]

/-- `d.get(k)`. -/
def dictGet (l : List (String × β)) (k : String) : Option β :=
  (l.find? (fun p => p.1 == k)).map Prod.snd

/-- `del d[k]`. -/
def dictDel (l : List (String × β)) (k : String) : List (String × β) :=
  l.filter (fun p => p.1 != k)

/-! ## auth_store.py -/

/-- `AuthCodeData` (auth_store.py lines 11-24). The upstream token, raw token
response and user profile are opaque payload strings. -/
structure AuthCodeData where
  code : String
  azureToken : String
  azureTokenData : String
  userInfo : String
  createdAt : Nat
  expiresAt : Nat
  used : Bool
  state : Option String
  redirectUri : Option String
  pkceChallenge : Option String
  pkceMethod : Option String
deriving DecidableEq

/-- `SessionData` (auth_store.py lines 26-34). -/
structure SessionData where
  sessionId : String
  state : String
  redirectUri : Option String
  createdAt : Nat
  pkceChallenge : Option String
  pkceMethod : Option String
deriving DecidableEq

/-- `AuthStore` (auth_store.py lines 37-53): two insertion-ordered maps plus the
two TTLs. Fresh randomness (`secrets.token_urlsafe`) is passed in by callers. -/
structure AuthStore where
  codes : List (String × AuthCodeData)
  sessions : List (String × SessionData)
  codeTtl : Nat
  sessionTtl : Nat
deriving DecidableEq

/-- `AuthStore._cleanup_expired_codes` (auth_store.py lines 221-232). -/
def AuthStore.cleanupExpiredCodes (st : AuthStore) (now : Nat) : AuthStore :=
  { st with codes := st.codes.filter (fun p => !(decide (now > p.2.expiresAt))) }

/-- `AuthStore._cleanup_expired_sessions` (auth_store.py lines 234-245). -/
def AuthStore.cleanupExpiredSessions (st : AuthStore) (now : Nat) : AuthStore :=
  { st with sessions :=
      st.sessions.filter (fun p => !(decide (now > p.2.createdAt + st.sessionTtl))) }

/-- `AuthStore.create_auth_code` (auth_store.py lines 55-92); `freshCode` models
the `secrets.token_urlsafe(32)` draw. -/
def AuthStore.createAuthCode (st : AuthStore)
    (freshCode azureToken azureTokenData userInfo : String)
    (state redirectUri pkceChallenge pkceMethod : Option String)
    (now : Nat) : String × AuthStore :=
  let d : AuthCodeData :=
    { code := freshCode, azureToken := azureToken, azureTokenData := azureTokenData,
      userInfo := userInfo, createdAt := now, expiresAt := now + st.codeTtl,
      used := false, state := state, redirectUri := redirectUri,
      pkceChallenge := pkceChallenge, pkceMethod := pkceMethod }
  (freshCode, AuthStore.cleanupExpiredCodes { st with codes := dictSet st.codes freshCode d } now)

/-- `AuthStore.get_auth_code` (auth_store.py lines 94-120): absent, expired
(with eviction) and already-used codes all yield `none`. -/
def AuthStore.getAuthCode (st : AuthStore) (code : String) (now : Nat) :
    Option AuthCodeData × AuthStore :=
  match dictGet st.codes code with
  | none => (none, st)
  | some d =>
    if now > d.expiresAt then (none, { st with codes := dictDel st.codes code })
    else if d.used then (none, st)
    else (some d, st)

/-- `AuthStore.mark_code_used` (auth_store.py lines 122-136). -/
def AuthStore.markCodeUsed (st : AuthStore) (code : String) : Bool × AuthStore :=
  match dictGet st.codes code with
  | none => (false, st)
  | some d => (true, { st with codes := dictSet st.codes code { d with used := true } })

/-- `AuthStore.create_session` (auth_store.py lines 138-165); `freshSessionId`
models the `secrets.token_urlsafe(32)` draw. -/
def AuthStore.createSession (st : AuthStore) (state : String)
    (redirectUri pkceChallenge pkceMethod : Option String)
    (freshSessionId : String) (now : Nat) : String × AuthStore :=
  let s : SessionData :=
    { sessionId := freshSessionId, state := state, redirectUri := redirectUri,
      createdAt := now, pkceChallenge := pkceChallenge, pkceMethod := pkceMethod }
  (freshSessionId,
   AuthStore.cleanupExpiredSessions { st with sessions := dictSet st.sessions freshSessionId s } now)

/-- `AuthStore.get_session` (auth_store.py lines 167-187). -/
def AuthStore.getSession (st : AuthStore) (sessionId : String) (now : Nat) :
    Option SessionData × AuthStore :=
  match dictGet st.sessions sessionId with
  | none => (none, st)
  | some s =>
    if now > s.createdAt + st.sessionTtl then
      (none, { st with sessions := dictDel st.sessions sessionId })
    else (some s, st)

/-- `AuthStore.get_session_by_state` (auth_store.py lines 189-204): linear scan
in dict-iteration (= insertion) order, returning the first unexpired match. -/
def AuthStore.getSessionByState (st : AuthStore) (state : String) (now : Nat) :
    Option SessionData :=
  (st.sessions.find? (fun p =>
    p.2.state == state && !(decide (now > p.2.createdAt + st.sessionTtl)))).map Prod.snd

/-- `AuthStore.delete_session` (auth_store.py lines 206-219). -/
def AuthStore.deleteSession (st : AuthStore) (sessionId : String) : Bool × AuthStore :=
  if (dictGet st.sessions sessionId).isSome then
    (true, { st with sessions := dictDel st.sessions sessionId })
  else (false, st)

/-! ## OAuth endpoints (server.py, auth.py) -/

/-- Environment configuration read by `auth.py` (AZURE_* variables). -/
structure OAuthConfig where
  azureAuthUrl : String
  azureClientId : String
  azureRedirectUri : String
deriving DecidableEq

/-- `AuthService.get_authorization_url` (auth.py lines 39-59): joins the params
dict in insertion order; `state` is appended last when truthy. -/
def getAuthorizationUrl (cfg : OAuthConfig) (state : String) : String :=
  cfg.azureAuthUrl ++ "?client_id=" ++ cfg.azureClientId ++
    "&response_type=code&redirect_uri=" ++ cfg.azureRedirectUri ++
    "&scope=openid profile email User.Read&response_mode=query" ++
    (if state != "" then "&state=" ++ state else "")

inductive HttpResult
  | plain (status : Nat) (content : String)
  | redirect (status : Nat) (url : String)
deriving DecidableEq

/-- `azure_state = state or secrets.token_urlsafe(32)` (server.py line 806):
a falsy supplied state (`None` or `""`) is replaced by the fresh draw. -/
def azureStateOf (state : Option String) (freshState : String) : String :=
  match state with
  | some s => if s != "" then s else freshState
  | none => freshState

/-- GET `/authorize` (server.py lines 767-822). `codeChallengeMethod` is the
bound query value (FastAPI default `"S256"` when the parameter is absent);
`freshState`/`freshSessionId` model the `secrets.token_urlsafe(32)` draws. -/
def authorize (cfg : OAuthConfig) (clientId redirectUri responseType scope : String)
    (state codeChallenge : Option String) (codeChallengeMethod : String)
    (freshState freshSessionId : String) (now : Nat) (st : AuthStore) :
    HttpResult × AuthStore :=
  if responseType ≠ "code" then
    (.plain 400 "Only response_type=code is supported", st)
  else if !(strTruthy codeChallenge) then
    (.plain 400 "code_challenge is required for public clients", st)
  else if codeChallengeMethod ≠ "S256" then
    (.plain 400 "Only S256 code_challenge_method is supported", st)
  else
    let azureState := azureStateOf state freshState
    let res := st.createSession azureState (some redirectUri) codeChallenge
      (some codeChallengeMethod) freshSessionId now
    (.redirect 302 (getAuthorizationUrl cfg azureState), res.2)

/-- The parsed form body of POST `/token` (server.py lines 828-832);
`form_data.get` yields `None` for absent fields. -/
structure TokenForm where
  code : Option String
  grantType : Option String
  clientId : Option String
  codeVerifier : Option String
deriving DecidableEq

inductive TokenResponse
  | oauthError (status : Nat) (error : String) (errorDescription : String)
  | success (accessToken : String) (tokenType : String) (expiresIn : Nat) (scope : String)
deriving DecidableEq

/-- POST `/token` (server.py lines 825-938). `mintJwt` abstracts
`AuthService.create_jwt_token` applied to the stored user profile. A non-ASCII
verifier makes `code_verifier.encode('ascii')` raise, which the surrounding
`except` turns into the 500 `server_error` response. -/
def tokenEndpoint (mintJwt : String → String) (form : TokenForm)
    (st : AuthStore) (now : Nat) : TokenResponse × AuthStore :=
  if form.grantType ≠ some "authorization_code" then
    (.oauthError 400 "unsupported_grant_type" "Only authorization_code grant type is supported", st)
  else if !(strTruthy form.code) then
    (.oauthError 400 "invalid_request" "Missing authorization code", st)
  else
    let code := form.code.getD ""
    match st.getAuthCode code now with
    | (none, st1) =>
      (.oauthError 400 "invalid_grant" "Authorization code is invalid or expired", st1)
    | (some d, st1) =>
      let st2 := (st1.markCodeUsed code).2
      if strTruthy d.pkceChallenge then
        if !(strTruthy form.codeVerifier) then
          (.oauthError 400 "invalid_request" "code_verifier is required for PKCE", st2)
        else
          let verifier := form.codeVerifier.getD ""
          if d.pkceMethod = some "S256" then
            if !(verifier.data.all (fun c => c.toNat < 128)) then
              (.oauthError 500 "server_error" "An internal error occurred", st2)
            else if computeS256Challenge verifier ≠ d.pkceChallenge.getD "" then
              (.oauthError 400 "invalid_grant" "PKCE verification failed", st2)
            else
              (.success (mintJwt d.userInfo) "Bearer" 86400 "openid profile email", st2)
          else
            (.oauthError 400 "invalid_request" "Only S256 code_challenge_method is supported", st2)
      else
        (.success (mintJwt d.userInfo) "Bearer" 86400 "openid profile email", st2)

/-- The code-minting step of GET `/auth/callback` (server.py lines 999-1065),
after the upstream token exchange and user-info fetch have succeeded; those two
outbound HTTPS calls are abstracted into the `azureToken`/`azureTokenData`/
`userInfo` arguments. The session is looked up by `state` only when `state` is
truthy, and its fields are carried onto the minted code only when a session was
found. -/
def oauthCallbackMint (state : Option String)
    (freshCode azureToken azureTokenData userInfo : String)
    (now : Nat) (st : AuthStore) : String × AuthStore :=
  let session : Option SessionData :=
    match state with
    | some s => if s != "" then st.getSessionByState s now else none
    | none => none
  st.createAuthCode freshCode azureToken azureTokenData userInfo state
    (session.bind SessionData.redirectUri)
    (session.bind SessionData.pkceChallenge)
    (session.bind SessionData.pkceMethod) now

/-! ## JSON-RPC dispatcher (server.py `TelnyxMCPServer`) -/

/-- A JSON-RPC `id` value. -/
inductive JId
  | null
  | num (n : Int)
  | str (s : String)
deriving DecidableEq

/-- A parsed JSON-RPC message object. `id := none` means the field is absent;
`id := some .null` means it is present and explicitly `null`. -/
structure JMessage where
  jsonrpc : String
  id : Option JId
  method : String
deriving DecidableEq

/-- Python `message.get("id")`: a JSON `null` id and an absent id both come back
as `None`. -/
def pyGetId (m : JMessage) : Option JId :=
  match m.id with
  | some JId.null => none
  | v => v

structure JError where
  code : Int
  message : String
  data : Option String
deriving DecidableEq

/-- A JSON-RPC response object (the handlers' `result` payload is opaque). -/
structure JResp where
  id : Option JId
  result : Option String
  error : Option JError
deriving DecidableEq

/-- The six method handlers of `TelnyxMCPServer` (server.py lines 200-440),
abstracted as state transformers over a world `W` (tool registry, log, session
table); `Except.error` models a raised exception. -/
structure Handlers (W : Type) where
  handleInitialize : Option JId → W → Except String JResp × W
  handleInitialized : W → Except String Unit × W
  handleToolsList : Option JId → W → Except String JResp × W
  handleToolsCall : Option JId → W → Except String JResp × W
  handleResourcesList : Option JId → W → Except String JResp × W
  handleResourcesRead : Option JId → W → Except String JResp × W

/-- The `try` block of `_process_single_message` (server.py lines 476-499):
method routing. `notifications/initialized` returns no response object; an
unknown method yields the -32601 error response. -/
def dispatchTry (h : Handlers W) (m : JMessage) (msgId : Option JId) (w : W) :
    Except String (Option JResp) × W :=
  if m.method = "initialize" then
    let r := h.handleInitialize msgId w
    (r.1.map some, r.2)
  else if m.method = "notifications/initialized" then
    let r := h.handleInitialized w
    (r.1.map (fun _ => none), r.2)
  else if m.method = "tools/list" then
    let r := h.handleToolsList msgId w
    (r.1.map some, r.2)
  else if m.method = "tools/call" then
    let r := h.handleToolsCall msgId w
    (r.1.map some, r.2)
  else if m.method = "resources/list" then
    let r := h.handleResourcesList msgId w
    (r.1.map some, r.2)
  else if m.method = "resources/read" then
    let r := h.handleResourcesRead msgId w
    (r.1.map some, r.2)
  else
    (.ok (some { id := msgId, result := none,
                 error := some { code := -32601, message := "Method not found: " ++ m.method, data := none } }), w)

/-- `TelnyxMCPServer._process_single_message` (server.py lines 457-515). -/
def processSingleMessage (h : Handlers W) (m : JMessage) (w : W) : Option JResp × W :=
  if m.jsonrpc ≠ "2.0" then
    (some { id := pyGetId m, result := none,
            error := some { code := -32600, message := "Invalid Request - must be JSON-RPC 2.0", data := none } }, w)
  else
    let msgId := pyGetId m
    let isNotification := msgId.isNone
    let out := dispatchTry h m msgId w
    match out.1 with
    | .ok none => (none, out.2)
    | .ok (some r) => (if isNotification then none else some r, out.2)
    | .error e =>
      (if isNotification then none
       else some { id := msgId, result := none,
                   error := some { code := -32603, message := "Internal error", data := some e } }, out.2)

/-- The batch loop of `TelnyxMCPServer.process_message` (server.py lines
444-452): entries whose `jsonrpc` is not `"2.0"` are skipped outright;
`None` results (notifications) are not appended. -/
def processBatch (h : Handlers W) : List JMessage → W → List JResp × W
  | [], w => ([], w)
  | m :: ms, w =>
    if m.jsonrpc = "2.0" then
      let r := processSingleMessage h m w
      let rs := processBatch h ms r.2
      (r.1.toList ++ rs.1, rs.2)
    else processBatch h ms w

/-- `TelnyxMCPServer.process_message` on a batch (server.py line 452): an empty
response list becomes `None`. -/
def processMessageBatch (h : Handlers W) (msgs : List JMessage) (w : W) :
    Option (List JResp) × W :=
  let rs := processBatch h msgs w
  (if rs.1.isEmpty then none else some rs.1, rs.2)

/-! ## POST /mcp transport (server.py `mcp_endpoint`) -/

/-- A parsed request body: a single message object or a batch array. -/
inductive JBody
  | single (m : JMessage)
  | batch (ms : List JMessage)

/-- The auth gate of `mcp_endpoint` (server.py lines 1241-1247): only a single
message whose method is `initialize` or `notifications/initialized` escapes the
authentication requirement; every batch requires it. -/
def requiresAuthFor : JBody → Bool
  | .single m => !(m.method == "initialize" || m.method == "notifications/initialized")
  | .batch _ => true

/-- Outcome of POST `/mcp` (ignoring SSE negotiation and the session-id echo,
which only re-encode the same payloads). -/
inductive McpResult
  | authRequired (status : Nat) (wwwAuthenticate : String) (link : String)
      (bodyId : Option JId) (errorCode : Int) (message : String) (oauthUrl : String)
  | accepted
  | jsonSingle (r : JResp)
  | jsonBatch (rs : List JResp)
deriving DecidableEq

/-- POST `/mcp` (server.py lines 1224-1369) for a successfully parsed JSON body.
`currentUser` is the result of `optional_auth` (`none` when the bearer token is
absent or invalid). -/
def mcpEndpoint (h : Handlers W) (baseUrl : String) (currentUser : Option String)
    (body : JBody) (w : W) : McpResult × W :=
  if requiresAuthFor body && currentUser.isNone then
    let bodyId := match body with
      | .single m => pyGetId m
      | .batch _ => none
    (.authRequired 401 "Bearer realm=\"MCP Server\""
      ("<" ++ baseUrl ++ "/.well-known/oauth-authorization-server>; rel=\"oauth-authorization-server\"")
      bodyId (-32603) "Authentication required"
      (baseUrl ++ "/.well-known/oauth-authorization-server"), w)
  else
    match body with
    | .single m =>
      match processSingleMessage h m w with
      | (none, w2) => (.accepted, w2)
      | (some r, w2) => (.jsonSingle r, w2)
    | .batch ms =>
      match processMessageBatch h ms w with
      | (none, w2) => (.accepted, w2)
      | (some rs, w2) => (.jsonBatch rs, w2)

/-! ## Store operations as a step relation, and the single-use invariant -/

/-- Any mutating or reading operation of `AuthStore`, for stating temporal
closure properties over arbitrary later activity on the store. -/
inductive StoreOp
  | createAuthCode (freshCode azureToken azureTokenData userInfo : String)
      (state redirectUri pkceChallenge pkceMethod : Option String) (now : Nat)
  | getAuthCode (code : String) (now : Nat)
  | markCodeUsed (code : String)
  | createSession (state : String) (redirectUri pkceChallenge pkceMethod : Option String)
      (freshSessionId : String) (now : Nat)
  | getSession (sessionId : String) (now : Nat)
  | deleteSession (sessionId : String)

def applyOp (st : AuthStore) : StoreOp → AuthStore
  | .createAuthCode fc at1 atd ui s r pc pm now =>
      (st.createAuthCode fc at1 atd ui s r pc pm now).2
  | .getAuthCode c now => (st.getAuthCode c now).2
  | .markCodeUsed c => (st.markCodeUsed c).2
  | .createSession s r pc pm sid now => (st.createSession s r pc pm sid now).2
  | .getSession sid now => (st.getSession sid now).2
  | .deleteSession sid => (st.deleteSession sid).2

def applyOps (st : AuthStore) : List StoreOp → AuthStore
  | [] => st
  | op :: ops => applyOps (applyOp st op) ops

/-- An operation does not mint a fresh auth code colliding with `c` (the
`secrets.token_urlsafe(32)` draws are fresh). -/
def opAvoidsCode (c : String) : StoreOp → Bool
  | .createAuthCode fc _ _ _ _ _ _ _ _ => fc != c
  | _ => true

/-- Code `c` is exhausted: every stored entry under key `c` is marked used. -/
def codeDead (st : AuthStore) (c : String) : Prop :=
  ∀ p ∈ st.codes, p.1 = c → p.2.used = true

/-- A code record as minted by the callback for a PKCE-carrying session. -/
def exCode : AuthCodeData :=
  { code := "codeA", azureToken := "tokA", azureTokenData := "tdA", userInfo := "alice",
    createdAt := 0, expiresAt := 60, used := false, state := some "st1",
    redirectUri := some "https://client/cb", pkceChallenge := none, pkceMethod := none }

def exStore : AuthStore :=
  { codes := [("codeA", exCode)], sessions := [], codeTtl := 60, sessionTtl := 3600 }

def exForm : TokenForm :=
  { code := some "codeA", grantType := some "authorization_code",
    clientId := none, codeVerifier := none }

/-- Every stored artifact that carries a (truthy) PKCE challenge also carries
method `"S256"`. This holds for every reachable store: `/authorize` rejects any
other method before creating a session, and the callback copies both fields
from the session onto the minted code (preservation lemmas below). -/
def pkceConsistent (st : AuthStore) : Prop :=
  (∀ p ∈ st.codes, strTruthy p.2.pkceChallenge = true → p.2.pkceMethod = some "S256") ∧
  (∀ q ∈ st.sessions, strTruthy q.2.pkceChallenge = true → q.2.pkceMethod = some "S256")

/-- A store holding one code bound to the PKCE challenge of RFC 7636's example. -/
def exPkceCode : AuthCodeData :=
  { code := "codeB", azureToken := "tokB", azureTokenData := "tdB", userInfo := "bob",
    createdAt := 0, expiresAt := 60, used := false, state := some "st2",
    redirectUri := some "https://client/cb",
    pkceChallenge := some "E9Melhoa2OwvFrEMTJguCHaoeK1t8URWbuGJSstw-cM",
    pkceMethod := some "S256" }

def exPkceStore : AuthStore :=
  { codes := [("codeB", exPkceCode)], sessions := [], codeTtl := 60, sessionTtl := 3600 }

def exCfg : OAuthConfig :=
  { azureAuthUrl := "https://login.microsoftonline.com/tenant/oauth2/v2.0/authorize",
    azureClientId := "cid", azureRedirectUri := "https://mcp/auth/callback" }

def emptyStore : AuthStore :=
  { codes := [], sessions := [], codeTtl := 60, sessionTtl := 3600 }

/-- An exchange request that would pass the PKCE check for record `d`: either
the record carries no (truthy) challenge, or the form supplies the matching
ASCII verifier. -/
def presentsValidly (d : AuthCodeData) (f : TokenForm) : Prop :=
  strTruthy d.pkceChallenge = false ∨
  (∃ v, f.codeVerifier = some v ∧ v ≠ "" ∧ (∀ c2 ∈ v.data, c2.toNat < 128) ∧
    d.pkceMethod = some "S256" ∧ computeS256Challenge v = d.pkceChallenge.getD "")

/-- The store effects of N token-exchange handler executions in their
serialization order. Between `get_auth_code` and `mark_code_used` (and through
the rest of the handler body) the source has no `await` point, so under the
single-threaded cooperative scheduler each handler's store section runs
atomically and any interleaving of N concurrent POST `/token` calls is
equivalent to some serial order, which this models. -/
def tokenCalls (mintJwt : String → String) :
    List TokenForm → AuthStore → Nat → List TokenResponse × AuthStore
  | [], st, _ => ([], st)
  | f :: fs, st, now =>
    let r := tokenEndpoint mintJwt f st now
    let rs := tokenCalls mintJwt fs r.2 now
    (r.1 :: rs.1, rs.2)

/-- The C5 claim's selection rule, written from the spec's words rather than
the source: among the stored sessions carrying this state and unexpired, the
most recently created one. -/
def specMostRecentSessionByState (st : AuthStore) (state : String) (now : Nat) :
    Option SessionData :=
  (st.sessions.filter (fun p =>
      p.2.state == state && !(decide (now > p.2.createdAt + st.sessionTtl)))).foldl
    (fun acc p =>
      match acc with
      | none => some p.2
      | some s => if p.2.createdAt ≥ s.createdAt then some p.2 else some s) none

def exSess1 : SessionData :=
  { sessionId := "sidA", state := "stX", redirectUri := some "https://a/cb",
    createdAt := 0, pkceChallenge := some "c1", pkceMethod := some "S256" }

def exSess2 : SessionData :=
  { sessionId := "sidB", state := "stX", redirectUri := some "https://b/cb",
    createdAt := 10, pkceChallenge := some "c2", pkceMethod := some "S256" }

def exSessStore : AuthStore :=
  { codes := [], sessions := [("sidA", exSess1), ("sidB", exSess2)],
    codeTtl := 60, sessionTtl := 3600 }

/-- Concrete handlers over a unit world, for evaluating the dispatcher. -/
def trivialHandlers : Handlers Unit :=
  { handleInitialize := fun i w => (.ok { id := i, result := some "init", error := none }, w),
    handleInitialized := fun w => (.ok (), w),
    handleToolsList := fun i w => (.ok { id := i, result := some "tools", error := none }, w),
    handleToolsCall := fun i w => (.ok { id := i, result := some "call", error := none }, w),
    handleResourcesList := fun i w => (.ok { id := i, result := some "resources", error := none }, w),
    handleResourcesRead := fun i w => (.ok { id := i, result := some "read", error := none }, w) }

/-- Handlers that mutate a counter world and then raise, for showing that a
notification's handler runs (its effect lands) while its exception is
swallowed. -/
def throwingHandlers : Handlers Nat :=
  { handleInitialize := fun _ w => (.error "boom", w + 1),
    handleInitialized := fun w => (.error "boom", w + 1),
    handleToolsList := fun _ w => (.error "boom", w + 1),
    handleToolsCall := fun _ w => (.error "boom", w + 1),
    handleResourcesList := fun _ w => (.error "boom", w + 1),
    handleResourcesRead := fun _ w => (.error "boom", w + 1) }

/-- A message that is a well-formed request (jsonrpc 2.0, non-null id) with a
method other than `notifications/initialized`. -/
def isRequestEntry (m : JMessage) : Bool :=
  m.jsonrpc == "2.0" && (pyGetId m).isSome && m.method != "notifications/initialized"

/-- The code record minted by the callback when no session was found: all
session-derived fields are absent. -/
def mintedBareCode (freshCode azT azTD uI : String) (state : Option String)
    (now ttl : Nat) : AuthCodeData :=
  { code := freshCode, azureToken := azT, azureTokenData := azTD, userInfo := uI,
    createdAt := now, expiresAt := now + ttl, used := false, state := state,
    redirectUri := none, pkceChallenge := none, pkceMethod := none }

theorem mem_dictSet {β : Type} {l : List (String × β)} {k : String} {v : β}
    {p : String × β} (hp : p ∈ dictSet l k v) : p ∈ l ∨ p = (k, v) := by
  unfold dictSet at hp
  split at hp
  · rcases List.mem_map.mp hp with ⟨q, hq, hfq⟩
    by_cases hk : q.1 == k
    · right; rw [if_pos hk] at hfq; exact hfq.symm
    · left; rw [if_neg hk] at hfq; exact hfq ▸ hq
  · rcases List.mem_append.mp hp with h | h
    · exact Or.inl h
    · exact Or.inr (List.mem_singleton.mp h)

theorem dictSet_key_entries {β : Type} {l : List (String × β)} {k : String} {v : β}
    {p : String × β} (hp : p ∈ dictSet l k v) (hk : p.1 = k) : p.2 = v := by
  unfold dictSet at hp
  split at hp
  · rcases List.mem_map.mp hp with ⟨q, hq, hfq⟩
    by_cases hqk : q.1 == k
    · simp [hqk] at hfq; rw [← hfq]
    · simp [hqk] at hfq
      rw [← hfq] at hk
      exact absurd (beq_iff_eq.mpr hk) hqk
  · rename_i hany
    rcases List.mem_append.mp hp with h | h
    · have hya : (l.any fun q => q.1 == k) = true :=
        List.any_eq_true.mpr ⟨p, h, beq_iff_eq.mpr hk⟩
      exact absurd hya hany
    · rw [List.mem_singleton.mp h]

theorem dictGet_mem {β : Type} {l : List (String × β)} {k : String} {v : β}
    (h : dictGet l k = some v) : ∃ p ∈ l, p.1 = k ∧ p.2 = v := by
  unfold dictGet at h
  rcases Option.map_eq_some'.mp h with ⟨p, hfind, hsnd⟩
  have hpk := List.find?_some hfind
  exact ⟨p, List.mem_of_find?_eq_some hfind, beq_iff_eq.mp hpk, hsnd⟩

theorem codeDead_getAuthCode {st : AuthStore} {c : String} (hd : codeDead st c)
    (now : Nat) : (st.getAuthCode c now).1 = none := by
  unfold AuthStore.getAuthCode
  cases hget : dictGet st.codes c with
  | none => rfl
  | some d =>
    rcases dictGet_mem hget with ⟨p, hmem, hk, hv⟩
    have hused : d.used = true := hv ▸ hd p hmem hk
    by_cases hexp : now > d.expiresAt
    · simp [hexp]
    · simp [hexp, hused]

theorem getAuthCode_snd_codes {st : AuthStore} {c : String} {now : Nat}
    {p : String × AuthCodeData} (hp : p ∈ (st.getAuthCode c now).2.codes) :
    p ∈ st.codes := by
  unfold AuthStore.getAuthCode at hp
  split at hp
  · exact hp
  · split at hp
    · simp only [dictDel] at hp
      exact (List.mem_filter.mp hp).1
    · split at hp <;> exact hp

theorem markCodeUsed_snd_codes {st : AuthStore} {c2 : String}
    {p : String × AuthCodeData} (hp : p ∈ (st.markCodeUsed c2).2.codes) :
    p ∈ st.codes ∨ p.2.used = true := by
  unfold AuthStore.markCodeUsed at hp
  split at hp
  · exact Or.inl hp
  · rcases mem_dictSet hp with h | h
    · exact Or.inl h
    · right; rw [h]

theorem markCodeUsed_dead {st : AuthStore} {c : String} {d : AuthCodeData}
    (hget : dictGet st.codes c = some d) : codeDead (st.markCodeUsed c).2 c := by
  intro p hp hpk
  simp only [AuthStore.markCodeUsed, hget] at hp
  have := dictSet_key_entries hp hpk
  rw [this]

theorem createSession_snd_codes {st : AuthStore} {s : String}
    {r pc pm : Option String} {sid : String} {now : Nat} :
    (st.createSession s r pc pm sid now).2.codes = st.codes := rfl

theorem getSession_snd_codes {st : AuthStore} {sid : String} {now : Nat} :
    (st.getSession sid now).2.codes = st.codes := by
  unfold AuthStore.getSession
  split
  · rfl
  · split <;> rfl

theorem deleteSession_snd_codes {st : AuthStore} {sid : String} :
    (st.deleteSession sid).2.codes = st.codes := by
  unfold AuthStore.deleteSession
  split <;> rfl

theorem codeDead_applyOp {st : AuthStore} {c : String} (hd : codeDead st c)
    {op : StoreOp} (hop : opAvoidsCode c op = true) : codeDead (applyOp st op) c := by
  cases op with
  | createAuthCode fc at1 atd ui s r pc pm now =>
    intro p hp hpk
    have hfc : fc ≠ c := by simpa [opAvoidsCode] using hop
    simp only [applyOp, AuthStore.createAuthCode, AuthStore.cleanupExpiredCodes] at hp
    have hp2 := (List.mem_filter.mp hp).1
    rcases mem_dictSet hp2 with h | h
    · exact hd p h hpk
    · exact absurd ((congrArg Prod.fst h).symm.trans hpk |>.symm ▸ rfl : fc = c) hfc
  | getAuthCode c2 now =>
    intro p hp hpk
    exact hd p (getAuthCode_snd_codes hp) hpk
  | markCodeUsed c2 =>
    intro p hp hpk
    rcases markCodeUsed_snd_codes hp with h | h
    · exact hd p h hpk
    · exact h
  | createSession s r pc pm sid now =>
    intro p hp hpk
    simp only [applyOp, createSession_snd_codes] at hp
    exact hd p hp hpk
  | getSession sid now =>
    intro p hp hpk
    simp only [applyOp, getSession_snd_codes] at hp
    exact hd p hp hpk
  | deleteSession sid =>
    intro p hp hpk
    simp only [applyOp, deleteSession_snd_codes] at hp
    exact hd p hp hpk

theorem codeDead_applyOps {st : AuthStore} {c : String} (hd : codeDead st c)
    {ops : List StoreOp} (hops : ∀ op ∈ ops, opAvoidsCode c op = true) :
    codeDead (applyOps st ops) c := by
  induction ops generalizing st with
  | nil => exact hd
  | cons op ops ih =>
    exact ih (codeDead_applyOp hd (hops op (List.mem_cons_self op ops)))
      (fun o ho => hops o (List.mem_cons_of_mem op ho))

theorem getAuthCode_some {st : AuthStore} {c : String} {now : Nat} {d : AuthCodeData}
    (h : (st.getAuthCode c now).1 = some d) :
    st.getAuthCode c now = (some d, st) ∧ dictGet st.codes c = some d ∧
      ¬(now > d.expiresAt) ∧ d.used = false := by
  unfold AuthStore.getAuthCode at h ⊢
  split at h
  · simp at h
  · rename_i d0 hget
    split at h
    · simp at h
    · rename_i hexp
      split at h
      · simp at h
      · rename_i hused
        have hd0 : d0 = d := by simpa using h
        subst hd0
        simp [hget, hexp, hused]

theorem tokenEndpoint_after_lookup {mintJwt : String → String} {form : TokenForm}
    {st : AuthStore} {now : Nat} {c : String} {d : AuthCodeData}
    (hc : form.code = some c) (hcne : c ≠ "")
    (hg : form.grantType = some "authorization_code")
    (hl : (st.getAuthCode c now).1 = some d) :
    (tokenEndpoint mintJwt form st now).2 = (st.markCodeUsed c).2 := by
  obtain ⟨heq, -, -, -⟩ := getAuthCode_some hl
  have hcode : form.code.getD "" = c := by rw [hc]; rfl
  unfold tokenEndpoint
  rw [if_neg (by simp [hg]), if_neg (by simp [strTruthy, hc, hcne]), hcode]
  simp only [heq]
  split
  · split
    · rfl
    · split
      · split
        · rfl
        · split <;> rfl
      · rfl
  · rfl

theorem tokenEndpoint_consumes {mintJwt : String → String} {form : TokenForm}
    {st : AuthStore} {now : Nat} {c : String} {d : AuthCodeData}
    (hc : form.code = some c) (hcne : c ≠ "")
    (hg : form.grantType = some "authorization_code")
    (hl : (st.getAuthCode c now).1 = some d) :
    codeDead (tokenEndpoint mintJwt form st now).2 c := by
  rw [tokenEndpoint_after_lookup hc hcne hg hl]
  exact markCodeUsed_dead (getAuthCode_some hl).2.1

theorem tokenEndpoint_deadCode {mintJwt : String → String} {form : TokenForm}
    {st : AuthStore} {now : Nat} {c : String}
    (hdead : codeDead st c) (hc : form.code = some c) (hcne : c ≠ "")
    (hg : form.grantType = some "authorization_code") :
    (tokenEndpoint mintJwt form st now).1 =
      .oauthError 400 "invalid_grant" "Authorization code is invalid or expired" ∧
    codeDead (tokenEndpoint mintJwt form st now).2 c := by
  have hnone := codeDead_getAuthCode hdead now
  have hcode : form.code.getD "" = c := by rw [hc]; rfl
  unfold tokenEndpoint
  rw [if_neg (by simp [hg]), if_neg (by simp [strTruthy, hc, hcne]), hcode]
  rcases hga : st.getAuthCode c now with ⟨o, st1⟩
  rw [hga] at hnone
  simp only at hnone
  subst hnone
  simp only [hga]
  refine ⟨by trivial, ?_⟩
  intro p hp hpk
  have hmem : p ∈ st.codes := by
    apply @getAuthCode_snd_codes st c now p
    rw [hga]
    exact hp
  exact hdead p hmem hpk

theorem tokenEndpoint_live_noPkce {mintJwt : String → String} {form : TokenForm}
    {st : AuthStore} {now : Nat} {c : String} {d : AuthCodeData}
    (hc : form.code = some c) (hcne : c ≠ "")
    (hg : form.grantType = some "authorization_code")
    (hl : (st.getAuthCode c now).1 = some d)
    (hch : strTruthy d.pkceChallenge = false) :
    (tokenEndpoint mintJwt form st now).1 =
      .success (mintJwt d.userInfo) "Bearer" 86400 "openid profile email" := by
  obtain ⟨heq, -, -, -⟩ := getAuthCode_some hl
  have hcode : form.code.getD "" = c := by rw [hc]; rfl
  unfold tokenEndpoint
  rw [if_neg (by simp [hg]), if_neg (by simp [strTruthy, hc, hcne]), hcode]
  simp [heq, hch]

/-! ## The claims -/

/-- Claim C1: authorization codes are single-use by construction. Once a
POST `/token` call has looked up code `c` successfully (`hl`), the code is
marked used before PKCE verification, so whatever the exchange's outcome,
after it — and after any further store activity that does not mint a colliding
fresh code — `get_auth_code` on `c` yields absent at every time (even inside
the TTL window), and every later well-formed `/token` exchange of `c` yields
`invalid_grant`. -/
theorem c1_auth_code_single_use
    (mintJwt : String → String) (form : TokenForm) (st : AuthStore) (now : Nat)
    (c : String) (d : AuthCodeData)
    (hc : form.code = some c) (hcne : c ≠ "")
    (hg : form.grantType = some "authorization_code")
    (hl : (st.getAuthCode c now).1 = some d)
    (ops : List StoreOp) (hops : ∀ op ∈ ops, opAvoidsCode c op = true) :
    (∀ now2 : Nat,
      ((applyOps (tokenEndpoint mintJwt form st now).2 ops).getAuthCode c now2).1 = none) ∧
    (∀ (mint2 : String → String) (form2 : TokenForm) (now2 : Nat),
      form2.code = some c → form2.grantType = some "authorization_code" →
      (tokenEndpoint mint2 form2 (applyOps (tokenEndpoint mintJwt form st now).2 ops) now2).1 =
        .oauthError 400 "invalid_grant" "Authorization code is invalid or expired") := by
  have hdead : codeDead (tokenEndpoint mintJwt form st now).2 c :=
    tokenEndpoint_consumes hc hcne hg hl
  have hdead2 := codeDead_applyOps hdead hops
  exact ⟨fun now2 => codeDead_getAuthCode hdead2 now2,
    fun mint2 form2 now2 hc2 hg2 => (tokenEndpoint_deadCode hdead2 hc2 hcne hg2).1⟩

/-- Witness for C1 at a concrete store: exchange `codeA` once at time 1, then
run an intervening store operation; at time 2 (well inside the 60s TTL) the
code is absent and a second exchange yields `invalid_grant`. -/
theorem c1_auth_code_single_use_witness :
    ((applyOps (tokenEndpoint id exForm exStore 1).2
        [StoreOp.getAuthCode "codeA" 2]).getAuthCode "codeA" 2).1 = none ∧
    (tokenEndpoint id exForm
        (applyOps (tokenEndpoint id exForm exStore 1).2 [StoreOp.getAuthCode "codeA" 2]) 2).1 =
      .oauthError 400 "invalid_grant" "Authorization code is invalid or expired" := by
  have h := c1_auth_code_single_use id exForm exStore 1 "codeA" exCode rfl
    (by decide) rfl (by decide) [StoreOp.getAuthCode "codeA" 2] (by decide)
  exact ⟨h.1 2, h.2 id exForm 2 rfl rfl⟩

/-- Claim C2: for a code record stored with a PKCE challenge, POST `/token`
rejects with `invalid_request` when `code_verifier` is absent (or empty, which
Python treats identically); otherwise it computes
`base64url(sha256(code_verifier))` without padding and compares it with the
stored challenge — mismatch yields `invalid_grant` (HTTP 400), match yields the
bearer-token success response. -/
theorem c2_pkce_verification
    (mintJwt : String → String) (form : TokenForm) (st : AuthStore) (now : Nat)
    (c : String) (d : AuthCodeData) (ch : String)
    (hinv : pkceConsistent st)
    (hc : form.code = some c) (hcne : c ≠ "")
    (hg : form.grantType = some "authorization_code")
    (hl : (st.getAuthCode c now).1 = some d)
    (hch : d.pkceChallenge = some ch) (hchne : ch ≠ "") :
    ((form.codeVerifier = none ∨ form.codeVerifier = some "") →
      (tokenEndpoint mintJwt form st now).1 =
        .oauthError 400 "invalid_request" "code_verifier is required for PKCE") ∧
    (∀ v : String, form.codeVerifier = some v → v ≠ "" →
      (∀ ch2 ∈ v.data, ch2.toNat < 128) →
      (computeS256Challenge v ≠ ch →
        (tokenEndpoint mintJwt form st now).1 =
          .oauthError 400 "invalid_grant" "PKCE verification failed") ∧
      (computeS256Challenge v = ch →
        (tokenEndpoint mintJwt form st now).1 =
          .success (mintJwt d.userInfo) "Bearer" 86400 "openid profile email")) := by
  obtain ⟨heq, hget, -, -⟩ := getAuthCode_some hl
  have hmeth : d.pkceMethod = some "S256" := by
    rcases dictGet_mem hget with ⟨p, hmem, -, hv⟩
    exact hv ▸ hinv.1 p hmem (by rw [hv, hch]; simp [strTruthy, hchne])
  have hcode : form.code.getD "" = c := by rw [hc]; rfl
  have hcht : strTruthy d.pkceChallenge = true := by
    rw [hch]; simp [strTruthy, hchne]
  constructor
  · intro hv
    unfold tokenEndpoint
    rw [if_neg (by simp [hg]), if_neg (by simp [strTruthy, hc, hcne]), hcode]
    have hvf : strTruthy form.codeVerifier = false := by
      rcases hv with h | h <;> simp [h, strTruthy]
    simp [heq, hcht, hvf]
  · intro v hvv hvne hasc
    have hvf : strTruthy form.codeVerifier = true := by
      simp [hvv, strTruthy, hvne]
    have hgdv : form.codeVerifier.getD "" = v := by rw [hvv]; rfl
    have hall : (v.data.all fun ch2 => decide (ch2.toNat < 128)) = true :=
      List.all_eq_true.mpr (fun x hx => decide_eq_true (hasc x hx))
    constructor
    · intro hne
      unfold tokenEndpoint
      rw [if_neg (by simp [hg]), if_neg (by simp [strTruthy, hc, hcne]), hcode]
      simp [heq, hcht, hvf, hgdv, hmeth, hall, hch, hne, strTruthy, hchne, hvv, hvne]
    · intro heqc
      unfold tokenEndpoint
      rw [if_neg (by simp [hg]), if_neg (by simp [strTruthy, hc, hcne]), hcode]
      simp [heq, hcht, hvf, hgdv, hmeth, hall, hch, heqc, strTruthy, hchne, hvv, hvne]

/-- Witness for C2 at RFC 7636's own example pair: exchanging with verifier
`dBjftJeZ4CVP-mB92K27uhbUJU1p1r_wW1gFWFOEjXk` against stored challenge
`E9Melhoa2OwvFrEMTJguCHaoeK1t8URWbuGJSstw-cM` yields the bearer token. -/
theorem c2_pkce_verification_witness :
    (tokenEndpoint id
      { code := some "codeB", grantType := some "authorization_code", clientId := none,
        codeVerifier := some "dBjftJeZ4CVP-mB92K27uhbUJU1p1r_wW1gFWFOEjXk" }
      exPkceStore 1).1 = .success "bob" "Bearer" 86400 "openid profile email" := by
  have h := c2_pkce_verification id
    { code := some "codeB", grantType := some "authorization_code", clientId := none,
      codeVerifier := some "dBjftJeZ4CVP-mB92K27uhbUJU1p1r_wW1gFWFOEjXk" }
    exPkceStore 1 "codeB" exPkceCode "E9Melhoa2OwvFrEMTJguCHaoeK1t8URWbuGJSstw-cM"
    (by constructor <;> decide) rfl (by decide) rfl (by decide) rfl (by decide)
  exact (h.2 "dBjftJeZ4CVP-mB92K27uhbUJU1p1r_wW1gFWFOEjXk" rfl (by decide)
    (by decide)).2 (by decide)

theorem mem_dictSet_self {β : Type} (l : List (String × β)) (k : String) (v : β) :
    (k, v) ∈ dictSet l k v := by
  unfold dictSet
  split
  · rename_i hany
    rcases List.any_eq_true.mp hany with ⟨q, hq, hqk⟩
    exact List.mem_map.mpr ⟨q, hq, by simp [hqk]⟩
  · exact List.mem_append.mpr (Or.inr (List.mem_singleton.mpr rfl))

/-- Counterexample to C3 as stated: with `response_type = "code"`,
`code_challenge` present but equal to `""` (not absent), and
`code_challenge_method = "S256"`, none of the claim's three 400-conditions
holds, so the claim predicts a 302 redirect with a stored session — but the
code falls into the `if not code_challenge` branch (Python truthiness) and
returns HTTP 400 without creating any session. -/
theorem c3_counterexample :
    ("code" = "code") ∧ ((some "" : Option String) ≠ none) ∧ ("S256" = "S256") ∧
    (authorize exCfg "abc" "https://x/cb" "code" "openid profile email" none (some "")
      "S256" "freshSt" "sid1" 0 emptyStore).1 =
      .plain 400 "code_challenge is required for public clients" ∧
    (authorize exCfg "abc" "https://x/cb" "code" "openid profile email" none (some "")
      "S256" "freshSt" "sid1" 0 emptyStore).2.sessions = [] := by
  refine ⟨rfl, by decide, rfl, ?_, ?_⟩ <;> rfl

/-- Claim C3 (amended): GET `/authorize` responds 400 when `response_type` is
not `"code"`, or `code_challenge` is absent *or empty*, or
`code_challenge_method` is not `"S256"` — regardless of `client_id`; otherwise
it stores an OAuthSession recording the redirect URI and PKCE parameters under
the effective state (the supplied state, or the fresh draw when the supplied
one is falsy) and responds 302 to the upstream authorization URL carrying that
state. -/
theorem c3_authorize_validation
    (cfg : OAuthConfig) (clientId redirectUri responseType scope : String)
    (state codeChallenge : Option String) (codeChallengeMethod : String)
    (freshState freshSessionId : String) (now : Nat) (st : AuthStore) :
    ((responseType ≠ "code" ∨ codeChallenge = none ∨ codeChallenge = some "" ∨
        codeChallengeMethod ≠ "S256") →
      ∃ msg, (authorize cfg clientId redirectUri responseType scope state codeChallenge
        codeChallengeMethod freshState freshSessionId now st).1 = .plain 400 msg) ∧
    (∀ chv : String, responseType = "code" → codeChallenge = some chv → chv ≠ "" →
      codeChallengeMethod = "S256" → freshState ≠ "" →
      (authorize cfg clientId redirectUri responseType scope state codeChallenge
          codeChallengeMethod freshState freshSessionId now st).1 =
        .redirect 302 (getAuthorizationUrl cfg (azureStateOf state freshState)) ∧
      azureStateOf state freshState ≠ "" ∧
      getAuthorizationUrl cfg (azureStateOf state freshState) =
        cfg.azureAuthUrl ++ "?client_id=" ++ cfg.azureClientId ++
          "&response_type=code&redirect_uri=" ++ cfg.azureRedirectUri ++
          "&scope=openid profile email User.Read&response_mode=query" ++
          ("&state=" ++ azureStateOf state freshState) ∧
      (freshSessionId,
        { sessionId := freshSessionId, state := azureStateOf state freshState,
          redirectUri := some redirectUri, createdAt := now,
          pkceChallenge := some chv, pkceMethod := some "S256" }) ∈
        (authorize cfg clientId redirectUri responseType scope state codeChallenge
          codeChallengeMethod freshState freshSessionId now st).2.sessions) := by
  constructor
  · intro hbad
    unfold authorize
    by_cases hrt : responseType = "code"
    · rw [if_neg (by simp [hrt])]
      by_cases hcc : strTruthy codeChallenge = true
      · rw [if_neg (by simp [hcc])]
        have hm : codeChallengeMethod ≠ "S256" := by
          rcases hbad with h | h | h | h
          · exact absurd hrt h
          · rw [h] at hcc; simp [strTruthy] at hcc
          · rw [h] at hcc; simp [strTruthy] at hcc
          · exact h
        rw [if_pos hm]
        exact ⟨_, rfl⟩
      · have hccf : strTruthy codeChallenge = false := by
          revert hcc; cases strTruthy codeChallenge <;> simp
        rw [if_pos (by simp [hccf])]
        exact ⟨_, rfl⟩
    · rw [if_pos hrt]
      exact ⟨_, rfl⟩
  · intro chv hrt hcc hchv hm hfs
    have hne : azureStateOf state freshState ≠ "" := by
      unfold azureStateOf
      match state with
      | none => exact hfs
      | some s =>
        by_cases hs : s = ""
        · simp [hs, hfs]
        · simp [hs]
    refine ⟨?_, hne, ?_, ?_⟩
    · unfold authorize
      rw [if_neg (by simp [hrt]), if_neg (by simp [hcc, strTruthy, hchv]),
        if_neg (by simp [hm])]
    · unfold getAuthorizationUrl
      rw [if_pos (by simpa using hne)]
    · unfold authorize
      rw [if_neg (by simp [hrt]), if_neg (by simp [hcc, strTruthy, hchv]),
        if_neg (by simp [hm])]
      show _ ∈ (AuthStore.cleanupExpiredSessions _ now).sessions
      unfold AuthStore.cleanupExpiredSessions
      apply List.mem_filter.mpr
      refine ⟨?_, by simp⟩
      rw [hcc, hm]
      exact mem_dictSet_self st.sessions freshSessionId _

/-- Witness for C3's amended claim: both the 400 side (at an absent
`code_challenge`) and the success side (at RFC 7636's example challenge)
evaluated at concrete inputs. -/
theorem c3_authorize_validation_witness :
    (∃ msg, (authorize exCfg "abc" "https://x/cb" "code" "openid profile email" none none
      "S256" "freshSt" "sid1" 0 emptyStore).1 = .plain 400 msg) ∧
    (authorize exCfg "abc" "https://x/cb" "code" "openid profile email" none
      (some "E9Melhoa2OwvFrEMTJguCHaoeK1t8URWbuGJSstw-cM")
      "S256" "freshSt" "sid1" 0 emptyStore).1 =
      .redirect 302 (getAuthorizationUrl exCfg "freshSt") := by
  constructor
  · exact (c3_authorize_validation exCfg "abc" "https://x/cb" "code" "openid profile email"
      none none "S256" "freshSt" "sid1" 0 emptyStore).1 (Or.inr (Or.inl rfl))
  · exact ((c3_authorize_validation exCfg "abc" "https://x/cb" "code" "openid profile email"
      none (some "E9Melhoa2OwvFrEMTJguCHaoeK1t8URWbuGJSstw-cM") "S256" "freshSt" "sid1" 0
      emptyStore).2 "E9Melhoa2OwvFrEMTJguCHaoeK1t8URWbuGJSstw-cM" rfl rfl (by decide) rfl
      (by decide)).1

theorem tokenEndpoint_pkce_match {mintJwt : String → String} {form : TokenForm}
    {st : AuthStore} {now : Nat} {c : String} {d : AuthCodeData} {ch v : String}
    (hc : form.code = some c) (hcne : c ≠ "")
    (hg : form.grantType = some "authorization_code")
    (hl : (st.getAuthCode c now).1 = some d)
    (hch : d.pkceChallenge = some ch) (hchne : ch ≠ "")
    (hmeth : d.pkceMethod = some "S256")
    (hvv : form.codeVerifier = some v) (hvne : v ≠ "")
    (hasc : ∀ c2 ∈ v.data, c2.toNat < 128)
    (heqc : computeS256Challenge v = ch) :
    (tokenEndpoint mintJwt form st now).1 =
      .success (mintJwt d.userInfo) "Bearer" 86400 "openid profile email" := by
  obtain ⟨heq, -, -, -⟩ := getAuthCode_some hl
  have hcode : form.code.getD "" = c := by rw [hc]; rfl
  have hgdv : form.codeVerifier.getD "" = v := by rw [hvv]; rfl
  have hall : (v.data.all fun c2 => decide (c2.toNat < 128)) = true :=
    List.all_eq_true.mpr (fun x hx => decide_eq_true (hasc x hx))
  unfold tokenEndpoint
  rw [if_neg (by simp [hg]), if_neg (by simp [strTruthy, hc, hcne]), hcode]
  simp [heq, hgdv, hmeth, hall, hch, heqc, strTruthy, hchne, hvv, hvne]

theorem tokenEndpoint_live_success {mintJwt : String → String} {form : TokenForm}
    {st : AuthStore} {now : Nat} {c : String} {d : AuthCodeData}
    (hc : form.code = some c) (hcne : c ≠ "")
    (hg : form.grantType = some "authorization_code")
    (hl : (st.getAuthCode c now).1 = some d)
    (hp : presentsValidly d form) :
    (tokenEndpoint mintJwt form st now).1 =
      .success (mintJwt d.userInfo) "Bearer" 86400 "openid profile email" := by
  rcases hp with h | ⟨v, hvv, hvne, hasc, hmeth, heqc⟩
  · exact tokenEndpoint_live_noPkce hc hcne hg hl h
  · by_cases hcht : strTruthy d.pkceChallenge = true
    · rcases hchsome : d.pkceChallenge with _ | ch
      · rw [hchsome] at hcht; simp [strTruthy] at hcht
      · have hchne : ch ≠ "" := by
          rw [hchsome] at hcht; simpa [strTruthy] using hcht
        refine tokenEndpoint_pkce_match hc hcne hg hl hchsome hchne hmeth hvv hvne hasc ?_
        rw [hchsome] at heqc; exact heqc
    · exact tokenEndpoint_live_noPkce hc hcne hg hl
        (by revert hcht; cases strTruthy d.pkceChallenge <;> simp)

theorem tokenCalls_dead {mintJwt : String → String} {fs : List TokenForm}
    {st : AuthStore} {now : Nat} {c : String}
    (hdead : codeDead st c) (hcne : c ≠ "")
    (hforms : ∀ f ∈ fs, f.code = some c ∧ f.grantType = some "authorization_code") :
    (tokenCalls mintJwt fs st now).1 =
      List.replicate fs.length
        (.oauthError 400 "invalid_grant" "Authorization code is invalid or expired") := by
  induction fs generalizing st with
  | nil => rfl
  | cons f fs ih =>
    obtain ⟨hfc, hfg⟩ := hforms f (List.mem_cons_self f fs)
    obtain ⟨h1, h2⟩ := @tokenEndpoint_deadCode mintJwt f st now c
      hdead hfc hcne hfg
    simp only [tokenCalls, List.length_cons, List.replicate_succ]
    rw [h1, ih h2 (fun g hg2 => hforms g (List.mem_cons_of_mem f hg2))]

/-- Claim C4: under N (≥ 1) token-exchange calls presenting the same valid
authorization code — serialized as explained at `tokenCalls` — the first
succeeds with a bearer token and the remaining N-1 all receive
`invalid_grant`. -/
theorem c4_concurrent_exchanges_one_winner
    (mintJwt : String → String) (forms : List TokenForm) (st : AuthStore) (now : Nat)
    (c : String) (d : AuthCodeData)
    (hl : (st.getAuthCode c now).1 = some d) (hcne : c ≠ "") (hne : forms ≠ [])
    (hforms : ∀ f ∈ forms, f.code = some c ∧ f.grantType = some "authorization_code" ∧
      presentsValidly d f) :
    (tokenCalls mintJwt forms st now).1 =
      .success (mintJwt d.userInfo) "Bearer" 86400 "openid profile email" ::
        List.replicate (forms.length - 1)
          (.oauthError 400 "invalid_grant" "Authorization code is invalid or expired") := by
  cases forms with
  | nil => exact absurd rfl hne
  | cons f fs =>
    obtain ⟨hfc, hfg, hfp⟩ := hforms f (List.mem_cons_self f fs)
    have hsucc := @tokenEndpoint_live_success mintJwt f st now c d
      hfc hcne hfg hl hfp
    have hdead : codeDead (tokenEndpoint mintJwt f st now).2 c :=
      tokenEndpoint_consumes hfc hcne hfg hl
    simp only [tokenCalls, List.length_cons, Nat.succ_sub_one]
    rw [hsucc, tokenCalls_dead hdead hcne
      (fun g hg2 => ⟨(hforms g (List.mem_cons_of_mem f hg2)).1,
        (hforms g (List.mem_cons_of_mem f hg2)).2.1⟩)]

/-- Witness for C4: three simultaneous exchanges of `codeA` against the
concrete store — exactly the first succeeds, the other two get
`invalid_grant`. -/
theorem c4_concurrent_exchanges_one_winner_witness :
    (tokenCalls id [exForm, exForm, exForm] exStore 1).1 =
      [.success "alice" "Bearer" 86400 "openid profile email",
       .oauthError 400 "invalid_grant" "Authorization code is invalid or expired",
       .oauthError 400 "invalid_grant" "Authorization code is invalid or expired"] := by
  have h := c4_concurrent_exchanges_one_winner id [exForm, exForm, exForm] exStore 1
    "codeA" exCode (by decide) (by decide) (by decide)
    (fun f hf => by
      have hfe : f = exForm := by simpa using hf
      rw [hfe]
      exact ⟨rfl, rfl, Or.inl (by decide)⟩)
  simpa using h

/-- Counterexample to C5 as stated: two unexpired sessions share state `stX`
(created at times 0 and 10; looked up at time 20 with TTL 3600, so both live).
`get_session_by_state` returns the first-inserted session (created at 0), not
the most recently created one (created at 10). -/
theorem c5_counterexample :
    AuthStore.getSessionByState exSessStore "stX" 20 = some exSess1 ∧
    specMostRecentSessionByState exSessStore "stX" 20 = some exSess2 ∧
    exSess1 ≠ exSess2 := by decide

theorem find?_first {α : Type} (pred : α → Bool) (l : List α) :
    (∀ x, l.find? pred = some x →
      pred x = true ∧ ∃ l1 l2, l = l1 ++ x :: l2 ∧ ∀ y ∈ l1, pred y = false) ∧
    (l.find? pred = none → ∀ y ∈ l, pred y = false) := by
  induction l with
  | nil =>
    exact ⟨fun x h => by simp at h, fun _ y hy => absurd hy (List.not_mem_nil y)⟩
  | cons a l ih =>
    by_cases ha : pred a
    · refine ⟨fun x h => ?_, fun h => ?_⟩
      · rw [List.find?_cons_of_pos l ha] at h
        obtain rfl : a = x := by simpa using h
        exact ⟨ha, [], l, rfl, fun y hy => absurd hy (List.not_mem_nil y)⟩
      · rw [List.find?_cons_of_pos l ha] at h
        simp at h
    · refine ⟨fun x h => ?_, fun h y hy => ?_⟩
      · rw [List.find?_cons_of_neg l ha] at h
        obtain ⟨hx, l1, l2, hsplit, hl1⟩ := ih.1 x h
        refine ⟨hx, a :: l1, l2, by rw [hsplit, List.cons_append], fun y hy => ?_⟩
        rcases List.mem_cons.mp hy with rfl | hy2
        · exact Bool.eq_false_iff.mpr ha
        · exact hl1 y hy2
      · rw [List.find?_cons_of_neg l ha] at h
        rcases List.mem_cons.mp hy with rfl | hy2
        · exact Bool.eq_false_iff.mpr ha
        · exact ih.2 h y hy2

/-- Claim C5 (amended): `get_session_by_state` returns the *first* session in
dict-iteration (insertion) order whose state matches and which is unexpired —
not the most recently created one. When it returns a session, that session
matches and is live and every earlier-inserted session either carries a
different state or is expired; when it returns absent, no live match exists. -/
theorem c5_get_session_by_state_first_match (st : AuthStore) (q : String) (now : Nat) :
    (∀ s, st.getSessionByState q now = some s →
      s.state = q ∧ now ≤ s.createdAt + st.sessionTtl ∧
      ∃ l1 k l2, st.sessions = l1 ++ (k, s) :: l2 ∧
        ∀ p ∈ l1, ¬(p.2.state = q ∧ now ≤ p.2.createdAt + st.sessionTtl)) ∧
    (st.getSessionByState q now = none →
      ∀ p ∈ st.sessions, ¬(p.2.state = q ∧ now ≤ p.2.createdAt + st.sessionTtl)) := by
  have hff := find?_first
    (fun p : String × SessionData =>
      p.2.state == q && !(decide (now > p.2.createdAt + st.sessionTtl)))
    st.sessions
  constructor
  · intro s hs
    unfold AuthStore.getSessionByState at hs
    rcases Option.map_eq_some'.mp hs with ⟨pr, hfind, hsnd⟩
    obtain ⟨hpred, l1, l2, hsplit, hl1⟩ := hff.1 pr hfind
    have hstate : pr.2.state = q ∧ now ≤ pr.2.createdAt + st.sessionTtl := by
      have := hpred
      simp only [Bool.and_eq_true, beq_iff_eq, Bool.not_eq_true', decide_eq_false_iff_not,
        not_lt] at this
      exact ⟨this.1, by omega⟩
    refine ⟨hsnd ▸ hstate.1, hsnd ▸ hstate.2, l1, pr.1, l2, ?_, ?_⟩
    · have hpair : (pr.1, s) = pr := by rw [← hsnd]
      rw [hsplit, hpair]
    · intro p hp hcontra
      have := hl1 p hp
      simp only [Bool.and_eq_false_iff, beq_eq_false_iff_ne, Bool.not_eq_false',
        decide_eq_true_eq] at this
      rcases this with h | h
      · exact h hcontra.1
      · omega
  · intro hnone p hp hcontra
    unfold AuthStore.getSessionByState at hnone
    have hfind : st.sessions.find?
        (fun p => p.2.state == q && !(decide (now > p.2.createdAt + st.sessionTtl))) = none := by
      rcases hfo : st.sessions.find?
          (fun p => p.2.state == q && !(decide (now > p.2.createdAt + st.sessionTtl))) with _ | pr
      · exact hfo
      · rw [hfo] at hnone; simp at hnone
    have := hff.2 hfind p hp
    simp only [Bool.and_eq_false_iff, beq_eq_false_iff_ne, Bool.not_eq_false',
      decide_eq_true_eq] at this
    rcases this with h | h
    · exact h hcontra.1
    · omega

/-- Witness for C5's amended claim at the concrete two-session store: the
returned (first-inserted) session indeed matches `stX` and is unexpired. -/
theorem c5_get_session_by_state_first_match_witness :
    exSess1.state = "stX" ∧ 20 ≤ exSess1.createdAt + exSessStore.sessionTtl := by
  have h := (c5_get_session_by_state_first_match exSessStore "stX" 20).1 exSess1 (by decide)
  exact ⟨h.1, h.2.1⟩

/-- Claim C6: POST `/mcp` never requires authentication for a single message
whose method is `initialize` or `notifications/initialized`, and requires it
for every other method: an other-method request with no (valid) bearer token
gets HTTP 401 with `WWW-Authenticate: Bearer`, a `Link` header naming the
OAuth discovery document, and a JSON-RPC error body with code -32603 carrying
the hint URL, mirroring the message's id. -/
theorem c6_mcp_auth_gate {W : Type} (h : Handlers W) (baseUrl : String)
    (m : JMessage) (w : W) :
    (m.method ≠ "initialize" → m.method ≠ "notifications/initialized" →
      (mcpEndpoint h baseUrl none (.single m) w).1 =
        .authRequired 401 "Bearer realm=\"MCP Server\""
          ("<" ++ baseUrl ++
            "/.well-known/oauth-authorization-server>; rel=\"oauth-authorization-server\"")
          (pyGetId m) (-32603) "Authentication required"
          (baseUrl ++ "/.well-known/oauth-authorization-server")) ∧
    ((m.method = "initialize" ∨ m.method = "notifications/initialized") →
      ∀ (user : Option String) (sc : Nat) (www link : String) (bid : Option JId)
        (ec : Int) (msg url : String),
        (mcpEndpoint h baseUrl user (.single m) w).1 ≠
          .authRequired sc www link bid ec msg url) := by
  constructor
  · intro h1 h2
    unfold mcpEndpoint
    rw [if_pos (by simp [requiresAuthFor, h1, h2])]
  · intro hm user sc www link bid ec msg url
    unfold mcpEndpoint
    rw [if_neg (by rcases hm with h1 | h1 <;> simp [requiresAuthFor, h1])]
    rcases hps : processSingleMessage h m w with ⟨o, w2⟩
    cases o <;> simp [hps]

/-- Witness for C6: `tools/list` with id 1 and no Authorization header is
refused with the full 401 challenge; `initialize` is served unauthenticated. -/
theorem c6_mcp_auth_gate_witness :
    (mcpEndpoint trivialHandlers "https://mcp" none
      (.single { jsonrpc := "2.0", id := some (.num 1), method := "tools/list" }) ()).1 =
      .authRequired 401 "Bearer realm=\"MCP Server\""
        "<https://mcp/.well-known/oauth-authorization-server>; rel=\"oauth-authorization-server\""
        (some (.num 1)) (-32603) "Authentication required"
        "https://mcp/.well-known/oauth-authorization-server" ∧
    (mcpEndpoint trivialHandlers "https://mcp" none
      (.single { jsonrpc := "2.0", id := some (.num 1), method := "initialize" }) ()).1 ≠
      .authRequired 401 "x" "y" none (-32603) "z" "u" := by
  constructor
  · have h := (c6_mcp_auth_gate trivialHandlers "https://mcp"
      { jsonrpc := "2.0", id := some (.num 1), method := "tools/list" } ()).1
      (by decide) (by decide)
    rw [h]; decide
  · exact (c6_mcp_auth_gate trivialHandlers "https://mcp"
      { jsonrpc := "2.0", id := some (.num 1), method := "initialize" } ()).2
      (Or.inl rfl) none 401 "x" "y" none (-32603) "z" "u"

theorem dispatchTry_shape {W : Type} (h : Handlers W) (m : JMessage)
    (msgId : Option JId) (w : W) (hmeth : m.method ≠ "notifications/initialized") :
    (∃ r w2, dispatchTry h m msgId w = (.ok (some r), w2)) ∨
    (∃ e w2, dispatchTry h m msgId w = (.error e, w2)) := by
  unfold dispatchTry
  by_cases h1 : m.method = "initialize"
  · rcases hr : h.handleInitialize msgId w with ⟨ro, w2⟩
    cases ro with
    | ok jr => exact Or.inl ⟨jr, w2, by simp [h1, hr, Except.map]⟩
    | error e => exact Or.inr ⟨e, w2, by simp [h1, hr, Except.map]⟩
  · rw [if_neg h1, if_neg hmeth]
    by_cases h3 : m.method = "tools/list"
    · rcases hr : h.handleToolsList msgId w with ⟨ro, w2⟩
      cases ro with
      | ok jr => exact Or.inl ⟨jr, w2, by simp [h3, hr, Except.map]⟩
      | error e => exact Or.inr ⟨e, w2, by simp [h3, hr, Except.map]⟩
    · rw [if_neg h3]
      by_cases h4 : m.method = "tools/call"
      · rcases hr : h.handleToolsCall msgId w with ⟨ro, w2⟩
        cases ro with
        | ok jr => exact Or.inl ⟨jr, w2, by simp [h4, hr, Except.map]⟩
        | error e => exact Or.inr ⟨e, w2, by simp [h4, hr, Except.map]⟩
      · rw [if_neg h4]
        by_cases h5 : m.method = "resources/list"
        · rcases hr : h.handleResourcesList msgId w with ⟨ro, w2⟩
          cases ro with
          | ok jr => exact Or.inl ⟨jr, w2, by simp [h5, hr, Except.map]⟩
          | error e => exact Or.inr ⟨e, w2, by simp [h5, hr, Except.map]⟩
        · rw [if_neg h5]
          by_cases h6 : m.method = "resources/read"
          · rcases hr : h.handleResourcesRead msgId w with ⟨ro, w2⟩
            cases ro with
            | ok jr => exact Or.inl ⟨jr, w2, by simp [h6, hr, Except.map]⟩
            | error e => exact Or.inr ⟨e, w2, by simp [h6, hr, Except.map]⟩
          · rw [if_neg h6]
            exact Or.inl ⟨_, w, rfl⟩

theorem processSingle_requestEntry {W : Type} (h : Handlers W) (m : JMessage) (w : W)
    (hm : isRequestEntry m = true) :
    ∃ x, processSingleMessage h m w = (some x, (dispatchTry h m (pyGetId m) w).2) := by
  have hj : m.jsonrpc = "2.0" := by
    have := hm; unfold isRequestEntry at this; simp at this; exact this.1.1
  have hid : (pyGetId m).isSome = true := by
    have := hm; unfold isRequestEntry at this; simp at this; exact this.1.2
  have hmeth : m.method ≠ "notifications/initialized" := by
    have := hm; unfold isRequestEntry at this; simp at this; exact this.2
  have hnn : (pyGetId m).isNone = false := by
    rcases hg : pyGetId m with _ | v
    · rw [hg] at hid; simp at hid
    · rfl
  unfold processSingleMessage
  rw [if_neg (by simp [hj])]
  rcases dispatchTry_shape h m (pyGetId m) w hmeth with ⟨r, w2, hdt⟩ | ⟨e, w2, hdt⟩
  · exact ⟨r, by simp [hdt, hnn]⟩
  · exact ⟨{ id := pyGetId m, result := none,
             error := some { code := -32603, message := "Internal error", data := some e } },
      by simp [hdt, hnn]⟩

theorem processSingle_notification {W : Type} (h : Handlers W) (m : JMessage) (w : W)
    (hj : m.jsonrpc = "2.0") (hid : pyGetId m = none) :
    processSingleMessage h m w = (none, (dispatchTry h m (pyGetId m) w).2) := by
  unfold processSingleMessage
  rw [if_neg (by simp [hj])]
  simp only [hid, Option.isNone_none]
  rcases hdt : dispatchTry h m none w with ⟨out, w2⟩
  simp only [hdt]
  rcases out with e | (_ | r) <;> simp

theorem processBatch_skips_bad_envelope {W : Type} (h : Handlers W)
    (msgs : List JMessage) (w : W) :
    processBatch h msgs w =
      processBatch h (msgs.filter fun m => m.jsonrpc == "2.0") w := by
  induction msgs generalizing w with
  | nil => rfl
  | cons m ms ih =>
    by_cases hj : m.jsonrpc = "2.0"
    · simp only [processBatch, if_pos hj, List.filter_cons,
        show (m.jsonrpc == "2.0") = true by simp [hj]]
      rw [ih]
    · simp only [processBatch, if_neg hj, List.filter_cons,
        show (m.jsonrpc == "2.0") = false by simp [hj]]
      exact ih w

/-- A `notifications/initialized` message whose handler returns normally (the
source handler, server.py lines 335-338, only logs and cannot raise) produces
no response object even when the message carries an id: the dispatcher returns
`None` before the id gate (line 482). -/
theorem processSingle_initialized_ok {W : Type} (h : Handlers W) (m : JMessage) (w : W)
    (hj : m.jsonrpc = "2.0") (hmeth : m.method = "notifications/initialized")
    (hinit : (h.handleInitialized w).1 = Except.ok ()) :
    processSingleMessage h m w = (none, (h.handleInitialized w).2) := by
  have hdt : dispatchTry h m (pyGetId m) w = (Except.ok none, (h.handleInitialized w).2) := by
    unfold dispatchTry
    rw [if_neg (by simp [hmeth]), if_pos hmeth]
    rcases hr : h.handleInitialized w with ⟨ro, w2⟩
    have hro : ro = Except.ok () := by rw [hr] at hinit; exact hinit
    subst hro
    simp [hr, Except.map]
  unfold processSingleMessage
  rw [if_neg (by simp [hj])]
  simp only [hdt]

theorem processBatch_length {W : Type} (h : Handlers W)
    (hinit : ∀ w2, (h.handleInitialized w2).1 = Except.ok ())
    (msgs : List JMessage) (w : W) :
    (processBatch h msgs w).1.length = msgs.countP isRequestEntry := by
  induction msgs generalizing w with
  | nil => rfl
  | cons m ms ih =>
    by_cases hj : m.jsonrpc = "2.0"
    · by_cases hmeth : m.method = "notifications/initialized"
      · have hre : isRequestEntry m = false := by
          simp [isRequestEntry, hmeth]
        have hx := processSingle_initialized_ok h m w hj hmeth (hinit w)
        simp only [processBatch, if_pos hj, hx, List.countP_cons, hre,
          Option.toList_none, List.nil_append]
        rw [ih _]
        simp
      · by_cases hid : (pyGetId m).isSome = true
        · have hre : isRequestEntry m = true := by
            simp [isRequestEntry, hj, hid, hmeth]
          obtain ⟨x, hx⟩ := processSingle_requestEntry h m w hre
          simp only [processBatch, if_pos hj, hx, List.countP_cons, hre,
            Option.toList_some, List.singleton_append, List.length_cons]
          rw [ih _]
          simp
        · have hidn : pyGetId m = none := by
            rcases hg : pyGetId m with _ | v
            · rfl
            · rw [hg] at hid; simp at hid
          have hre : isRequestEntry m = false := by
            simp [isRequestEntry, hidn]
          have hx := processSingle_notification h m w hj hidn
          simp only [processBatch, if_pos hj, hx, List.countP_cons, hre,
            Option.toList_none, List.nil_append]
          rw [ih _]
          simp
    · have hre : isRequestEntry m = false := by
        simp [isRequestEntry, hj]
      simp only [processBatch, if_neg hj, List.countP_cons, hre]
      rw [ih _]
      simp

theorem processBatch_all_notifications {W : Type} (h : Handlers W)
    (msgs : List JMessage) (w : W) (hall : ∀ m ∈ msgs, pyGetId m = none) :
    (processBatch h msgs w).1 = [] := by
  induction msgs generalizing w with
  | nil => rfl
  | cons m ms ih =>
    have hall2 : ∀ m2 ∈ ms, pyGetId m2 = none :=
      fun m2 hm2 => hall m2 (List.mem_cons_of_mem m hm2)
    by_cases hj : m.jsonrpc = "2.0"
    · have hx := processSingle_notification h m w hj (hall m (List.mem_cons_self m ms))
      simp only [processBatch, if_pos hj, hx, Option.toList_none, List.nil_append]
      exact ih _ hall2
    · simp only [processBatch, if_neg hj]
      exact ih _ hall2

/-- Counterexample to C7 as stated: a batch whose single entry is a well-formed
message *with* an id (so a "request entry" per the claim) but with method
`notifications/initialized` produces an empty response set (`None` body, 202),
not a one-entry response array. -/
theorem c7_counterexample :
    pyGetId { jsonrpc := "2.0", id := some (.num 1),
              method := "notifications/initialized" } = some (.num 1) ∧
    processMessageBatch trivialHandlers
      [{ jsonrpc := "2.0", id := some (.num 1), method := "notifications/initialized" }] () =
      (none, ()) := ⟨rfl, rfl⟩

/-- Claim C7 (amended): batch entries are processed in order and the response
array contains exactly one entry per well-formed request entry (jsonrpc
`"2.0"`, non-null id) whose method is not `notifications/initialized` — that
method never produces a response object even when the entry carries an id, and
entries with another `jsonrpc` value are skipped. In particular a batch
`[notification, request]` yields a one-element response array, and a batch of
only notifications yields no response body and HTTP 202. The count clause
holds for *every* batch, mixed ones included, under the side condition that
the `notifications/initialized` handler returns normally — faithful to the
source handler (server.py lines 335-338), which only writes a log line and
cannot raise. -/
theorem c7_batch_responses {W : Type} (h : Handlers W)
    (hinit : ∀ w2, (h.handleInitialized w2).1 = Except.ok ()) :
    (∀ (msgs : List JMessage) (w : W),
      (processBatch h msgs w).1.length = msgs.countP isRequestEntry) ∧
    (∀ (n r : JMessage) (w : W), pyGetId n = none → n.jsonrpc = "2.0" →
      isRequestEntry r = true →
      ∃ x, processMessageBatch h [n, r] w =
        (some [x], (dispatchTry h r (pyGetId r) (dispatchTry h n (pyGetId n) w).2).2)) ∧
    (∀ (msgs : List JMessage) (w : W) (baseUrl u : String),
      (∀ m ∈ msgs, pyGetId m = none) →
      (processMessageBatch h msgs w).1 = none ∧
      (mcpEndpoint h baseUrl (some u) (.batch msgs) w).1 = .accepted) := by
  refine ⟨fun msgs w => processBatch_length h hinit msgs w, ?_, ?_⟩
  · intro n r w hn hnj hr
    have hrj : r.jsonrpc = "2.0" := by
      have := hr; unfold isRequestEntry at this; simp at this; exact this.1.1
    have h1 := processSingle_notification h n w hnj hn
    obtain ⟨x, h2⟩ := processSingle_requestEntry h r (dispatchTry h n (pyGetId n) w).2 hr
    refine ⟨x, ?_⟩
    simp only [processMessageBatch, processBatch, if_pos hnj, if_pos hrj, h1, h2,
      Option.toList_none, Option.toList_some, List.nil_append, List.singleton_append]
    simp
  · intro msgs w baseUrl u hall
    have h1 := processBatch_all_notifications h msgs w hall
    have hmb : processMessageBatch h msgs w = (none, (processBatch h msgs w).2) := by
      unfold processMessageBatch
      simp [h1]
    refine ⟨by rw [hmb], ?_⟩
    unfold mcpEndpoint
    rw [if_neg (by simp)]
    simp only [hmb]

/-- Witness for C7's amended claim at concrete batches: a three-entry batch
with one notification gives two responses; a mixed batch whose first entry is
an id-carrying `notifications/initialized` message gives exactly one response
(for the `tools/list` request alone); `[notification, request]` gives a
one-element array; an all-notification batch gives HTTP 202. -/
theorem c7_batch_responses_witness :
    (processBatch trivialHandlers
      [{ jsonrpc := "2.0", id := none, method := "notifications/initialized" },
       { jsonrpc := "2.0", id := some (.num 1), method := "tools/list" },
       { jsonrpc := "2.0", id := some (.num 2), method := "tools/call" }] ()).1.length = 2 ∧
    (processBatch trivialHandlers
      [{ jsonrpc := "2.0", id := some (.num 1), method := "notifications/initialized" },
       { jsonrpc := "2.0", id := some (.num 2), method := "tools/list" }] ()).1.length = 1 ∧
    (∃ x, processMessageBatch trivialHandlers
      [{ jsonrpc := "2.0", id := none, method := "notifications/initialized" },
       { jsonrpc := "2.0", id := some (.num 1), method := "tools/list" }] () =
      (some [x], ())) ∧
    (mcpEndpoint trivialHandlers "b" (some "u")
      (.batch [{ jsonrpc := "2.0", id := none, method := "notifications/initialized" }]) ()).1 =
      .accepted := by
  refine ⟨?_, ?_, ?_, ?_⟩
  · have h := (c7_batch_responses trivialHandlers (fun _ => rfl)).1
      [{ jsonrpc := "2.0", id := none, method := "notifications/initialized" },
       { jsonrpc := "2.0", id := some (.num 1), method := "tools/list" },
       { jsonrpc := "2.0", id := some (.num 2), method := "tools/call" }] ()
    rw [h]; decide
  · have h := (c7_batch_responses trivialHandlers (fun _ => rfl)).1
      [{ jsonrpc := "2.0", id := some (.num 1), method := "notifications/initialized" },
       { jsonrpc := "2.0", id := some (.num 2), method := "tools/list" }] ()
    rw [h]; decide
  · obtain ⟨x, hx⟩ := (c7_batch_responses trivialHandlers (fun _ => rfl)).2.1
      { jsonrpc := "2.0", id := none, method := "notifications/initialized" }
      { jsonrpc := "2.0", id := some (.num 1), method := "tools/list" } () rfl rfl (by decide)
    exact ⟨x, hx⟩
  · exact ((c7_batch_responses trivialHandlers (fun _ => rfl)).2.2
      [{ jsonrpc := "2.0", id := none, method := "notifications/initialized" }] () "b" "u"
      (by decide)).2

/-- Counterexample to C8 as stated: sent as a batch entry, a message with
`jsonrpc` `"1.0"` and id 7 does not produce a -32600 error entry — the batch
loop skips it and the whole batch yields no response body at all. -/
theorem c8_counterexample :
    ({ jsonrpc := "1.0", id := some (.num 7), method := "tools/list" } : JMessage).jsonrpc ≠
      "2.0" ∧
    processMessageBatch trivialHandlers
      [{ jsonrpc := "1.0", id := some (.num 7), method := "tools/list" }] () = (none, ()) :=
  ⟨by decide, rfl⟩

/-- Claim C8 (amended): a *single* message whose `jsonrpc` field is not exactly
`"2.0"` yields the invalid-request error (code -32600) mirroring the message's
id; as a *batch entry* such a message is skipped outright — the batch behaves
exactly as if the entry were absent. -/
theorem c8_invalid_envelope :
    (∀ (W : Type) (h : Handlers W) (m : JMessage) (w : W), m.jsonrpc ≠ "2.0" →
      processSingleMessage h m w =
        (some { id := pyGetId m, result := none,
                error := some { code := -32600,
                                message := "Invalid Request - must be JSON-RPC 2.0",
                                data := none } }, w)) ∧
    (∀ (W : Type) (h : Handlers W) (msgs : List JMessage) (w : W),
      processBatch h msgs w =
        processBatch h (msgs.filter fun m => m.jsonrpc == "2.0") w) := by
  constructor
  · intro W h m w hj
    unfold processSingleMessage
    rw [if_pos hj]
  · intro W h msgs w
    exact processBatch_skips_bad_envelope h msgs w

/-- Witness for C8's amended claim: the single-message -32600 response at a
concrete `jsonrpc: "1.0"` message with id 7. -/
theorem c8_invalid_envelope_witness :
    processSingleMessage trivialHandlers
      { jsonrpc := "1.0", id := some (.num 7), method := "tools/list" } () =
      (some { id := some (.num 7), result := none,
              error := some { code := -32600,
                              message := "Invalid Request - must be JSON-RPC 2.0",
                              data := none } }, ()) := by
  have h := c8_invalid_envelope.1 Unit trivialHandlers
    { jsonrpc := "1.0", id := some (.num 7), method := "tools/list" } () (by decide)
  exact h

/-- Claim C10: a JSON-RPC message whose id field is present but explicitly null
is treated as a notification: its handler still runs (the handler's world
effect is applied — the final world is the one dispatch produced), but no
response object is emitted, any handler exception is swallowed (the statement
quantifies over all handler environments, raising ones included), and a single
such message yields HTTP 202 — whatever the method, including tools/list and
tools/call. -/
theorem c10_null_id_notification {W : Type} (h : Handlers W) (m : JMessage) (w : W)
    (hj : m.jsonrpc = "2.0") (hid : m.id = some .null) :
    processSingleMessage h m w = (none, (dispatchTry h m none w).2) ∧
    (∀ baseUrl u, (mcpEndpoint h baseUrl (some u) (.single m) w).1 = .accepted) := by
  have hpg : pyGetId m = none := by unfold pyGetId; rw [hid]
  have h1 := processSingle_notification h m w hj hpg
  rw [hpg] at h1
  refine ⟨h1, fun baseUrl u => ?_⟩
  unfold mcpEndpoint
  rw [if_neg (by simp)]
  simp only [h1]

/-- Witness for C10: a `tools/call` message with `"id": null` against handlers
that increment a counter world and then raise — the counter advances (the
handler ran), the exception is swallowed, no response is produced, HTTP 202. -/
theorem c10_null_id_notification_witness :
    processSingleMessage throwingHandlers
      { jsonrpc := "2.0", id := some .null, method := "tools/call" } 0 = (none, 1) ∧
    (mcpEndpoint throwingHandlers "b" (some "u")
      (.single { jsonrpc := "2.0", id := some .null, method := "tools/call" }) 0).1 =
      .accepted := by
  have h := c10_null_id_notification throwingHandlers
    { jsonrpc := "2.0", id := some .null, method := "tools/call" } 0 rfl rfl
  exact ⟨h.1, h.2 "b" "u"⟩

theorem dictGet_set_filter {β : Type} (l : List (String × β)) (k : String) (v : β)
    (pred : String × β → Bool) (hv : pred (k, v) = true) :
    dictGet ((dictSet l k v).filter pred) k = some v := by
  have hmem : (k, v) ∈ (dictSet l k v).filter pred :=
    List.mem_filter.mpr ⟨mem_dictSet_self l k v, hv⟩
  rcases hfo : ((dictSet l k v).filter pred).find? (fun p => p.1 == k) with _ | pr
  · exfalso
    have := (find?_first (fun p : String × β => p.1 == k) _).2 hfo (k, v) hmem
    simp at this
  · have hprk : pr.1 = k := by
      have := ((find?_first (fun p : String × β => p.1 == k) _).1 pr hfo).1
      simpa using this
    have hpr2 : pr.2 = v :=
      dictSet_key_entries (List.mem_filter.mp (List.mem_of_find?_eq_some hfo)).1 hprk
    simp [dictGet, hfo, hpr2]

/-- Claim C9: when the upstream callback arrives with no state, an empty state,
or a state matching no stored session, the authorization code it mints carries
no redirect URI and no PKCE challenge or method; a subsequent POST `/token`
exchange of that code with *no* `code_verifier` succeeds with a bearer token —
the PKCE verification branch is skipped entirely. -/
theorem c9_sessionless_callback_code
    (state : Option String) (freshCode azT azTD uI : String) (now : Nat) (st : AuthStore)
    (hfresh : freshCode ≠ "")
    (hns : state = none ∨ ∃ s, state = some s ∧
      (s = "" ∨ st.getSessionByState s now = none)) :
    dictGet (oauthCallbackMint state freshCode azT azTD uI now st).2.codes freshCode =
      some (mintedBareCode freshCode azT azTD uI state now st.codeTtl) ∧
    (∀ (mintJwt : String → String) (now2 : Nat), ¬(now2 > now + st.codeTtl) →
      (tokenEndpoint mintJwt
        { code := some freshCode, grantType := some "authorization_code",
          clientId := none, codeVerifier := none }
        (oauthCallbackMint state freshCode azT azTD uI now st).2 now2).1 =
        .success (mintJwt uI) "Bearer" 86400 "openid profile email") := by
  have hsess : oauthCallbackMint state freshCode azT azTD uI now st =
      st.createAuthCode freshCode azT azTD uI state none none none now := by
    unfold oauthCallbackMint
    rcases hns with h | ⟨s, hs, h⟩
    · subst h; rfl
    · subst hs
      rcases h with h | h
      · subst h; rfl
      · by_cases hse : s = ""
        · subst hse; rfl
        · simp [hse, h]
  have hget : dictGet (oauthCallbackMint state freshCode azT azTD uI now st).2.codes
      freshCode = some (mintedBareCode freshCode azT azTD uI state now st.codeTtl) := by
    rw [hsess]
    unfold AuthStore.createAuthCode AuthStore.cleanupExpiredCodes
    exact dictGet_set_filter st.codes freshCode _ _ (by simp)
  refine ⟨hget, fun mintJwt now2 hnow2 => ?_⟩
  have hl : ((oauthCallbackMint state freshCode azT azTD uI now st).2.getAuthCode
      freshCode now2).1 =
      some (mintedBareCode freshCode azT azTD uI state now st.codeTtl) := by
    unfold AuthStore.getAuthCode
    simp only [hget]
    rw [if_neg (by simpa [mintedBareCode] using hnow2)]
    simp [mintedBareCode]
  exact tokenEndpoint_live_noPkce rfl hfresh rfl hl (by simp [strTruthy, mintedBareCode])

/-- Witness for C9: a concrete callback arriving with state `"ghost"` that
matches no session in the store mints code `codeC` with no PKCE binding, and
exchanging it without a verifier at time 6 yields the bearer token. -/
theorem c9_sessionless_callback_code_witness :
    (tokenEndpoint id
      { code := some "codeC", grantType := some "authorization_code",
        clientId := none, codeVerifier := none }
      (oauthCallbackMint (some "ghost") "codeC" "tokC" "tdC" "carol" 5 exSessStore).2 6).1 =
      .success "carol" "Bearer" 86400 "openid profile email" := by
  have h := c9_sessionless_callback_code (some "ghost") "codeC" "tokC" "tdC" "carol" 5
    exSessStore (by decide) (Or.inr ⟨"ghost", rfl, Or.inr (by decide)⟩)
  exact h.2 id 6 (by decide)

/-! ## Preservation of the PKCE-consistency invariant

These lemmas justify C2's `pkceConsistent` hypothesis: the invariant holds of
the empty store and is preserved by every store-mutating endpoint, so every
reachable store satisfies it — in particular, every stored code record with a
truthy challenge carries method `"S256"`. -/

theorem pkceConsistent_empty : pkceConsistent emptyStore :=
  ⟨fun p hp => absurd hp (List.not_mem_nil p), fun q hq => absurd hq (List.not_mem_nil q)⟩

theorem getAuthCode_snd_sessions {st : AuthStore} {c : String} {now : Nat} :
    (st.getAuthCode c now).2.sessions = st.sessions := by
  unfold AuthStore.getAuthCode
  split
  · rfl
  · split
    · rfl
    · split <;> rfl

theorem pkceConsistent_createAuthCode {st : AuthStore} {fc a b u : String}
    {state r pc pm : Option String} {now : Nat}
    (hinv : pkceConsistent st) (hpc : strTruthy pc = true → pm = some "S256") :
    pkceConsistent (st.createAuthCode fc a b u state r pc pm now).2 := by
  constructor
  · intro p hp ht
    simp only [AuthStore.createAuthCode, AuthStore.cleanupExpiredCodes] at hp
    have hp2 := (List.mem_filter.mp hp).1
    rcases mem_dictSet hp2 with h | h
    · exact hinv.1 p h ht
    · rw [h] at ht ⊢
      exact hpc ht
  · intro q hq ht
    exact hinv.2 q hq ht

theorem pkceConsistent_createSession {st : AuthStore} {state : String}
    {r pc pm : Option String} {sid : String} {now : Nat}
    (hinv : pkceConsistent st) (hpc : strTruthy pc = true → pm = some "S256") :
    pkceConsistent (st.createSession state r pc pm sid now).2 := by
  constructor
  · intro p hp ht
    exact hinv.1 p hp ht
  · intro q hq ht
    simp only [AuthStore.createSession, AuthStore.cleanupExpiredSessions] at hq
    have hq2 := (List.mem_filter.mp hq).1
    rcases mem_dictSet hq2 with h | h
    · exact hinv.2 q h ht
    · rw [h] at ht ⊢
      exact hpc ht

theorem pkceConsistent_markCodeUsed {st : AuthStore} {c2 : String}
    (hinv : pkceConsistent st) : pkceConsistent (st.markCodeUsed c2).2 := by
  constructor
  · intro p hp ht
    unfold AuthStore.markCodeUsed at hp
    split at hp
    · exact hinv.1 p hp ht
    · rename_i d hget
      rcases mem_dictSet hp with h | h
      · exact hinv.1 p h ht
      · rcases dictGet_mem hget with ⟨p0, hp0, -, hp0v⟩
        rw [h] at ht ⊢
        have hm := hinv.1 p0 hp0 (by rw [hp0v]; exact ht)
        rw [hp0v] at hm
        exact hm
  · intro q hq ht
    unfold AuthStore.markCodeUsed at hq
    split at hq
    · exact hinv.2 q hq ht
    · exact hinv.2 q hq ht

theorem pkceConsistent_getAuthCode {st : AuthStore} {c : String} {now : Nat}
    (hinv : pkceConsistent st) : pkceConsistent (st.getAuthCode c now).2 := by
  constructor
  · intro p hp ht
    exact hinv.1 p (getAuthCode_snd_codes hp) ht
  · intro q hq ht
    rw [getAuthCode_snd_sessions] at hq
    exact hinv.2 q hq ht

theorem pkceConsistent_authorize {cfg : OAuthConfig}
    {clientId redirectUri responseType scope : String}
    {state codeChallenge : Option String} {codeChallengeMethod : String}
    {freshState freshSessionId : String} {now : Nat} {st : AuthStore}
    (hinv : pkceConsistent st) :
    pkceConsistent (authorize cfg clientId redirectUri responseType scope state
      codeChallenge codeChallengeMethod freshState freshSessionId now st).2 := by
  unfold authorize
  split
  · exact hinv
  · split
    · exact hinv
    · split
      · exact hinv
      · rename_i h1 h2 h3
        have hm : codeChallengeMethod = "S256" := not_not.mp h3
        exact pkceConsistent_createSession hinv (fun _ => by rw [hm])

theorem getSessionByState_mem {st : AuthStore} {s : String} {now : Nat}
    {sess : SessionData} (h : st.getSessionByState s now = some sess) :
    ∃ k, (k, sess) ∈ st.sessions := by
  unfold AuthStore.getSessionByState at h
  rcases Option.map_eq_some'.mp h with ⟨pr, hfind, hsnd⟩
  have hmem := List.mem_of_find?_eq_some hfind
  exact ⟨pr.1, by rw [show (pr.1, sess) = pr from by rw [← hsnd]]; exact hmem⟩

theorem pkceConsistent_callbackMint {state : Option String}
    {freshCode azT azTD uI : String} {now : Nat} {st : AuthStore}
    (hinv : pkceConsistent st) :
    pkceConsistent (oauthCallbackMint state freshCode azT azTD uI now st).2 := by
  unfold oauthCallbackMint
  rcases state with _ | s
  · exact pkceConsistent_createAuthCode hinv (by simp [strTruthy])
  · by_cases hse : (s != "") = true
    · rcases hlk : st.getSessionByState s now with _ | sess
      · simp only [hse, if_true, hlk]
        exact pkceConsistent_createAuthCode hinv (by simp [strTruthy])
      · obtain ⟨k, hmem⟩ := getSessionByState_mem hlk
        simp only [hse, if_true, hlk, Option.some_bind]
        exact pkceConsistent_createAuthCode hinv (fun ht => by
          have := hinv.2 (k, sess) hmem (by simpa using ht)
          simpa using this)
    · have hse2 : (s != "") = false := by
        revert hse; cases s != "" <;> simp
      simp only [hse2, if_false]
      exact pkceConsistent_createAuthCode hinv (by simp [strTruthy])

theorem pkceConsistent_tokenEndpoint {mintJwt : String → String} {form : TokenForm}
    {st : AuthStore} {now : Nat} (hinv : pkceConsistent st) :
    pkceConsistent (tokenEndpoint mintJwt form st now).2 := by
  unfold tokenEndpoint
  split
  · exact hinv
  · split
    · exact hinv
    · rcases hga : st.getAuthCode (form.code.getD "") now with ⟨o, st1⟩
      have hst1 : pkceConsistent st1 := by
        have := @pkceConsistent_getAuthCode st (form.code.getD "") now hinv
        rw [hga] at this
        exact this
      rcases o with _ | d
      · simp only [hga]
        exact hst1
      · have hst2 := @pkceConsistent_markCodeUsed st1 (form.code.getD "") hst1
        simp only [hga]
        split
        · split
          · exact hst2
          · split
            · split
              · exact hst2
              · split <;> exact hst2
            · exact hst2
        · exact hst2

end TelnyxMCP
